import Mathlib

/-!
Verification of the HotSauceBot reply-bot pipeline (src/bot.py).

Strings are modelled as `List Char` (Python `len` on the ASCII texts used
here agrees with list length).  External collaborators (the text-generation
backend, the Perspective toxicity classifier, the Huggingface topic
classifier, the Azure image captioner and the nltk word tokenizer) are
modelled as oracle function parameters; everything else is translated
directly from the Python source.
-/

set_option autoImplicit false

abbrev Str := List Char

def s2l (s : String) : Str := s.data

/-- Characters treated as sentence terminators by the regex character
class used in `clean_text` (src/bot.py lines 67-68). -/
def isTermChar (c : Char) : Bool := c = '?' || c = '.' || c = '!'

/-- Python regex word characters (`\w`, ASCII texts): letters, digits
and underscore.  Used for the `\b` boundaries in `bad_keyword`. -/
def isWordChar (c : Char) : Bool := c.isAlphanum || c = '_'

/-- Case folding used to model `re.IGNORECASE` in `bad_keyword`. -/
def lowerStr (s : Str) : Str := s.map Char.toLower

/-- Test whether `pat` occurs at the very start of `s`. -/
def matchHere : Str → Str → Bool
  | _, [] => true
  | [], _ :: _ => false
  | c :: cs, p :: ps => if c = p then matchHere cs ps else false

/-- Index of the first double quote, the find call at src/bot.py line
63, with `none` standing for the Python result -1. -/
def findQuoteIdx (s : Str) : Option Nat := s.findIdx? (fun c => c = '"')

/-- Index of the last occurrence of `ch`, the Python rfind calls at
src/bot.py lines 72 and 301, with `none` standing for -1. -/
def rfindIdx (ch : Char) : Str → Option Nat
  | [] => none
  | c :: rest =>
    match rfindIdx ch rest with
    | some i => some (i + 1)
    | none => if c = ch then some 0 else none

/-- Helper for `pySplitTerm`: accumulates the current piece in reverse. -/
def pySplitTermAux : Str → Str → List Str
  | [], acc => [acc.reverse]
  | c :: rest, acc =>
    if isTermChar c then acc.reverse :: pySplitTermAux rest []
    else pySplitTermAux rest (c :: acc)

/-- Model of the regex split on sentence terminators used at src/bot.py
line 68: split at every terminator character, keeping empty pieces,
exactly as the Python re.split does. -/
def pySplitTerm (s : Str) : List Str := pySplitTermAux s []

/-- The substring of `s` strictly after the last sentence terminator
(the whole of `s` when no terminator occurs).  Specification-side
description of the last piece of the terminator split. -/
def suffixAfterLastTerm (s : Str) : Str :=
  (s.reverse.takeWhile (fun c => !isTermChar c)).reverse

/-- Fuel-indexed body of `pyReplace`; the fuel is an upper bound on the
length of the scanned list, so the zero-fuel case is never reached by
`pyReplace` itself. -/
def pyReplaceAux : Nat → Str → Str → Str
  | _, [], _ => []
  | 0, s, _ => s
  | n + 1, c :: rest, old =>
    if matchHere (c :: rest) old then
      pyReplaceAux n (List.drop (old.length - 1) rest) old
    else
      c :: pyReplaceAux n rest old

/-- Model of the Python replace call with an empty replacement at
src/bot.py line 69: remove every non-overlapping occurrence of `old`,
scanning left to right; with an empty `old` Python returns `s`
unchanged. -/
def pyReplace (s old : Str) : Str :=
  if old.isEmpty then s else pyReplaceAux s.length s old

/-- Model of `clean_text` (src/bot.py lines 59-77): truncate at the
first double quote if present; otherwise remove every occurrence of
the last piece of the terminator split; otherwise truncate just after
the last space; otherwise return the empty string (the discard
signal). -/
def cleanText (s : Str) : Str :=
  match findQuoteIdx s with
  | some i => s.take i
  | none =>
    if s.any isTermChar then
      pyReplace s ((pySplitTerm s).getLastD [])
    else
      match rfindIdx ' ' s with
      | some i => s.take (i + 1)
      | none => []

/-- Whitespace tokenizer, accumulating the current token in reverse. -/
def wsTokensAux : Str → Str → List Str
  | [], acc => if acc.isEmpty then [] else [acc.reverse]
  | c :: rest, acc =>
    if c = ' ' || c = '\n' || c = '\t' then
      if acc.isEmpty then wsTokensAux rest []
      else acc.reverse :: wsTokensAux rest []
    else
      wsTokensAux rest (c :: acc)

/-- Concrete whitespace tokenizer, a stand-in instance for the external
`nltk.word_tokenize` collaborator when a word count has to be evaluated
on a concrete string. -/
def wsTokens (s : Str) : List Str := wsTokensAux s []

/-- Model of `words_below` (src/bot.py lines 51-57) with the external
tokenizer passed as an oracle: true when the token count does not
exceed `maxWords`. -/
def wordsBelow (tokenize : Str → List Str) (s : Str) (maxWords : Nat) : Bool :=
  !((tokenize s).length > maxWords)

/-- Whether the character at index `i` of `s` is a word character
(`false` past the end of the string, matching `\b` at the string edge). -/
def wordCharAt (s : Str) (i : Nat) : Bool :=
  match s.drop i with
  | [] => false
  | c :: _ => isWordChar c

/-- Case-insensitive whole-word match of `kw` at index `i` of `s`:
the semantics of the word-boundary regex search of `bad_keyword`
restricted to one position, for keywords that begin and end with word
characters
(every keyword in the configured set does). -/
def wordMatchAt (kw s : Str) (i : Nat) : Bool :=
  matchHere (lowerStr (s.drop i)) (lowerStr kw)
  && (i == 0 || !wordCharAt s (i - 1))
  && !wordCharAt s (i + kw.length)

/-- Whole-word case-insensitive search of `kw` anywhere in `s`. -/
def wordSearch (kw s : Str) : Bool :=
  (List.range (s.length + 1)).any (fun i => wordMatchAt kw s i)

/-- Model of `_negative_keywords` (src/bot.py lines 23-40): the result
of joining the split-up entries of the default keyword list.  Note the
Python quirks reproduced verbatim: the entry ("ausch, witz") is a plain
parenthesised string rather than a pair, so the intended keyword
carries a stray comma and space; the entries ("rac" "ist") and
("israel") are plain strings as well. -/
def defaultNegativeKeywords : List Str :=
  [s2l "aryan", s2l "ausch, witz", s2l "black people", s2l "child porn",
   s2l "concentration camp", s2l "faggot", s2l "hitler", s2l "holocaust",
   s2l "incest", s2l "israel", s2l "jewish", s2l "jew", s2l "jews",
   s2l "kill", s2l "kkk", s2l "loli", s2l "master race", s2l "muslim",
   s2l "nationalist", s2l "nazi", s2l "nigga", s2l "nigger",
   s2l "paedo", s2l "palestin", s2l "pedo", s2l "racist", s2l "rape",
   s2l "raping", s2l "slut", s2l "swastika"]

/-- Model of `reddit_bot.bad_keyword` (src/bot.py lines 138-139): the
sublist of keywords that match `text` whole-word case-insensitively. -/
def bad_keyword (kws : List Str) (text : Str) : List Str :=
  kws.filter (fun kw => wordSearch kw text)

/-- Model of `reddit_bot.is_toxic` (src/bot.py lines 141-153) with the
external Perspective classifier passed as an oracle returning the
severe-toxicity summary score: true exactly when the score is strictly
above the configured threshold. -/
def isToxic (threshold : ℚ) (classify : Str → ℚ) (text : Str) : Bool :=
  classify text > threshold

/-- The budget ledger fields of `reddit_bot`: `self.today` (days are
numbered by `Nat`) and `self.tally` (src/bot.py lines 113-114). -/
structure Ledger where
  today : Nat
  tally : Nat
deriving DecidableEq, Repr

/-- The date-rollover prologue of `check_budget` (src/bot.py lines
183-186): when the wall-clock day differs from the stored day, reset
the tally to 0 and store the new day. -/
def rollover (d : Nat) (s : Ledger) : Ledger :=
  if d ≠ s.today then ⟨d, 0⟩ else s

/-- Model of `reddit_bot.check_budget` (src/bot.py lines 180-191):
perform the rollover, then report whether the tally plus the length of
the string is strictly below
the cap.  The ledger after the call is returned as well; the check
itself never adds to the tally. -/
def checkBudget (cap d : Nat) (text : Str) (s : Ledger) : Bool × Ledger :=
  let s1 := rollover d s
  (decide (s1.tally + text.length < cap), s1)

/-- The admission sequence appearing at every call site of
`check_budget` that spends (src/bot.py lines 247-251, 287-290, 325-329,
381-384, 422-425, 161-164): call `check_budget` and, when it returns
true, immediately charge `len(string)` to the tally. -/
def checkAndCharge (cap d : Nat) (text : Str) (s : Ledger) : Bool × Ledger :=
  let r := checkBudget cap d text s
  if r.1 then (true, ⟨r.2.today, r.2.tally + text.length⟩) else (false, r.2)

/-- Model of `reddit_bot.on_topic` (src/bot.py lines 155-178) with the
external zero-shot topic classifier as an oracle (`none` models a
failed query).
The third component records the tally at the moment the classifier is
invoked (`none` when it is never invoked). -/
def onTopic (cap d : Nat) (threshold : ℚ) (classify : Str → Option (List ℚ))
    (text : Str) (topics : List Str) (s : Ledger) :
    Bool × Ledger × Option Nat :=
  let r := checkBudget cap d text s
  if !r.1 then (false, r.2, none)
  else
    let s2 : Ledger := ⟨r.2.today, r.2.tally + text.length⟩
    match classify text with
    | none => (false, s2, some s2.tally)
    | some scores =>
        ((scores.take topics.length).any (fun sc => decide (sc > threshold)),
         s2, some s2.tally)

/-- The candidate loop of `reddit_bot.make_post` (src/bot.py lines
258-278): iterate over the generated batch; discard a candidate when
the keyword filter matches or the toxicity filter fires, or when no
post can be extracted from it (`extract` is the external
`extract_submission_from_generated_text` as an oracle); otherwise
submit it and stop.  The returned string is the generated text the
submitted post is built from. -/
def makePostSelect (kws : List Str) (tox : Str → Bool) (extract : Str → Bool) :
    List Str → Option Str
  | [] => none
  | t :: rest =>
    if !(bad_keyword kws t).isEmpty || tox t then
      makePostSelect kws tox extract rest
    else if extract t then some t
    else makePostSelect kws tox extract rest

/-- The title loop of `reddit_bot.build_post` (src/bot.py lines
299-315): truncate each candidate just after its last newline, clean
it, skip empty or over-300-character results and results failing either
safety filter, and remember the LAST acceptable title (the loop does
not break). -/
def buildPostTitleLoop (kws : List Str) (tox : Str → Bool) :
    List Str → Option Str → Option Str
  | [], acc => acc
  | t :: rest, acc =>
    let t1 := match rfindIdx '\n' t with
              | some i => t.take (i + 1)
              | none => t
    let c := cleanText t1
    if c.isEmpty then buildPostTitleLoop kws tox rest acc
    else if c.length > 300 then buildPostTitleLoop kws tox rest acc
    else if !(bad_keyword kws c).isEmpty || tox c then
      buildPostTitleLoop kws tox rest acc
    else buildPostTitleLoop kws tox rest (some c)

/-- The body loop of `reddit_bot.build_post` (src/bot.py lines
331-340): clean each candidate; an empty cleaning aborts the whole
attempt (`return None` in the source, modelled by `none`); a candidate
failing either safety filter is skipped; an acceptable candidate is
remembered (again the LAST one wins).  `some acc` carries the body
found so far (`some none` = no body yet, submission would go out with
an empty selftext). -/
def buildPostBodyLoop (kws : List Str) (tox : Str → Bool) :
    List Str → Option Str → Option (Option Str)
  | [], acc => some acc
  | t :: rest, acc =>
    let c := cleanText t
    if c.isEmpty then none
    else if !(bad_keyword kws c).isEmpty || tox c then
      buildPostBodyLoop kws tox rest acc
    else buildPostBodyLoop kws tox rest (some c)

/-- One attempt of `reddit_bot.build_post` (src/bot.py lines 283-348),
from the generated title batch to the submitted (title, optional body)
pair.  `linkpost` is the `random.random() < linkpost_share` draw; when
it is true the submission is an image post and only the title is
posted text.  `bodyAdmitted` is the result of the second budget
admission (line 325); when it is false the attempt aborts.  Returns
the posted (title, optional selftext), or `none` when nothing is
posted. -/
def buildPostAttempt (kws : List Str) (tox : Str → Bool)
    (titleBatch : List Str) (linkpost : Bool) (bodyAdmitted : Bool)
    (bodyBatch : List Str) : Option (Str × Option Str) :=
  match buildPostTitleLoop kws tox titleBatch none with
  | none => none
  | some title =>
    if linkpost then some (title, none)
    else if !bodyAdmitted then none
    else
      match buildPostBodyLoop kws tox bodyBatch none with
      | none => none
      | some body => some (title, body)

/-- The candidate loop of `reddit_bot.make_comment` (src/bot.py lines
433-448): clean each candidate; an empty cleaning aborts the attempt
(`return None`); a candidate that is toxic or keyword-matched is
skipped; otherwise the cleaned text is posted as the reply. -/
def makeCommentSelect (kws : List Str) (tox : Str → Bool) :
    List Str → Option Str
  | [] => none
  | t :: rest =>
    let c := cleanText t
    if c.isEmpty then none
    else if tox c || !(bad_keyword kws c).isEmpty then
      makeCommentSelect kws tox rest
    else some c

/-- The candidate loop of `reddit_bot.generate_reply` (src/bot.py lines
392-406): clean each candidate; skip empty cleanings and toxic
candidates; the first remaining cleaned candidate is posted as the
reply.  Note that, unlike the other three pipelines, this loop never
consults `bad_keyword`. -/
def generateReplySelect (tox : Str → Bool) : List Str → Option Str
  | [] => none
  | t :: rest =>
    let c := cleanText t
    if c.isEmpty then generateReplySelect tox rest
    else if tox c then generateReplySelect tox rest
    else some c

/-- A Reddit comment as the pipeline reads it: author name and body. -/
structure RComment where
  author : Str
  body : Str
deriving DecidableEq, Repr

/-- A Reddit submission as the pipeline reads it. -/
structure RPost where
  author : Str
  title : Str
  selftext : Str
  is_self : Bool
  url : Str
deriving DecidableEq, Repr

def nlStr : Str := ['\n']

/-- Rendering of one ancestor comment, the format call at src/bot.py
line 360. -/
def commentLine (c : RComment) : Str :=
  s2l "Comment by u/" ++ c.author ++ s2l ": \"" ++ c.body ++ ['"']

/-- Rendering of the trailing reply line, the format call at src/bot.py
line 357. -/
def replyLine (user : Str) : Str := s2l "Reply by u/" ++ user ++ s2l ": \""

/-- The root-post line of a prompt (src/bot.py lines 368-373 and
415-420): a text post renders its body, a link post renders the
caption produced by the external image-description collaborator. -/
def postLine (describe : Str → Str) (p : RPost) : Str :=
  if p.is_self then
    s2l "Post by u/" ++ p.author ++ s2l " titled \"" ++ p.title
      ++ s2l "\": \"" ++ p.selftext ++ ['"']
  else
    s2l "Image post by u/" ++ p.author ++ s2l " titled \"" ++ p.title
      ++ s2l "\": " ++ describe p.url

/-- The ancestry walk of `reddit_bot.generate_reply` (src/bot.py lines
358-376): `chain` is the comment chain from the reply target upward,
whose last element is a top-level comment (its parent is the post
`p`).  At most `fuel = max_levels` comments are consumed; reaching the
top prepends the post line, running out of levels yields `none`
("Post not in prompt"). -/
def walkThread (describe : Str → Str) (p : RPost) :
    Nat → List RComment → Str → Option Str
  | 0, _, _ => none
  | _ + 1, [], _ => none
  | _ + 1, [c], acc =>
      some (postLine describe p ++ nlStr ++ (commentLine c ++ nlStr ++ acc))
  | n + 1, c :: c2 :: rest, acc =>
      walkThread describe p n (c2 :: rest) (commentLine c ++ nlStr ++ acc)

/-- The pre-backend part of `reddit_bot.generate_reply` (src/bot.py
lines 352-391): build the prompt from the thread ancestry and the
backstory, admit it against the character budget, and call the
generation backend exactly when admission succeeds.  Returns (backend
called?, assembled prompt, ledger after the call).  No word count is
ever consulted. -/
def generateReplyGate (backstory username : Str) (maxLevels : Nat)
    (describe : Str → Str) (cap d : Nat) (s : Ledger)
    (chain : List RComment) (p : RPost) : Bool × Str × Ledger :=
  match walkThread describe p maxLevels chain (replyLine username) with
  | none => (false, [], s)
  | some body =>
    let prompt := backstory ++ nlStr ++ body
    let r := checkAndCharge cap d prompt s
    (r.1, prompt, r.2)

/-- The pre-backend part of `reddit_bot.make_comment` (src/bot.py lines
408-432): build the prompt from the submission and the backstory,
admit it against the character budget, and call the generation backend
exactly when admission succeeds. -/
def makeCommentGate (backstory username : Str) (describe : Str → Str)
    (cap d : Nat) (s : Ledger) (p : RPost) : Bool × Str × Ledger :=
  let prompt := backstory ++ nlStr
    ++ (postLine describe p ++ nlStr
        ++ (s2l "Comment by u/" ++ username ++ s2l ": \""))
  let r := checkAndCharge cap d prompt s
  (r.1, prompt, r.2)

/-- The configuration fields consumed by the watcher logic. -/
structure BotCfg where
  linkpost_only : Nat
  force_top_reply : Bool
deriving DecidableEq, Repr

/-- A submission as seen by `watch_submissions`, with the authors of
its fully expanded top-level comments. -/
structure SubItem where
  author : Str
  is_self : Bool
  title : Str
  selftext : Str
  url : Str
  commentAuthors : List Str
deriving DecidableEq, Repr

/-- An inbox item as seen by `watch_inbox`, with the authors of the
fully expanded direct replies of the comment. -/
structure InboxItem where
  was_comment : Bool
  author : Option Str
  body : Str
  replyAuthors : List Str
  parentIsPost : Bool
deriving DecidableEq, Repr

/-- The per-item decision logic of `reddit_bot.watch_submissions`
(src/bot.py lines 455-482): whether `make_comment` is invoked for the
item.  `onTopicRes` is the outcome of the `on_topic` call as an
oracle.  Note that the forced image-reply branch (`linkpost_only == 2`
and a link post, line 462) fires BEFORE the own-reply deduplication
check of lines 468-475. -/
def watchSubDispatch (cfg : BotCfg) (me : Str) (kws : List Str)
    (onTopicRes : Bool) (it : SubItem) : Bool :=
  if it.author = me then false
  else if !(bad_keyword kws it.title).isEmpty
      || (it.is_self && !(bad_keyword kws it.selftext).isEmpty) then false
  else if cfg.linkpost_only == 2 && !it.is_self then true
  else if cfg.linkpost_only == 1 && it.is_self then false
  else if me ∈ it.commentAuthors then false
  else onTopicRes

/-- The per-item decision logic of `reddit_bot.watch_inbox` (src/bot.py
lines 488-528): whether `generate_reply` is invoked for the item.
Non-comment messages never dispatch; items whose body matches the
keyword filter are skipped; the own-reply deduplication check of lines
505-513 runs before either dispatch path; the non-forced path
additionally requires a budget pre-check and the hard-coded 1000-token
`words_below` check on the incoming comment body, then the `on_topic`
outcome. -/
def watchInboxDispatch (cfg : BotCfg) (me : Str) (kws : List Str)
    (tokenize : Str → List Str) (onTopicRes : Bool) (cap d : Nat)
    (s : Ledger) (it : InboxItem) : Bool :=
  if !it.was_comment then false
  else if it.author.isNone then false
  else if !(bad_keyword kws it.body).isEmpty then false
  else if me ∈ it.replyAuthors then false
  else if it.parentIsPost && cfg.force_top_reply then true
  else if (checkBudget cap d it.body s).1 && wordsBelow tokenize it.body 1000 then
    onTopicRes
  else false

/-- The hard-coded word ceiling applied to incoming comment bodies
(src/bot.py line 517). -/
def inboxWordLimit : Nat := 1000

/-- Shared-memory state for two watcher threads racing through the
unsynchronised admission sequence: the shared tally plus, per thread, a
program counter (0 = about to run `check_budget`, 1 = admitted and
about to charge, 2 = finished) and the locally remembered admission
result. -/
structure RaceState where
  tally : Nat
  pc0 : Nat
  adm0 : Bool
  pc1 : Nat
  adm1 : Bool
deriving DecidableEq, Repr

/-- One interleaving step: thread `t` executes its next atomic action.
Step pc=0 is the comparison inside `check_budget` (src/bot.py line
188); step pc=1 is the tally charge performed by the caller (e.g.
src/bot.py line 384), executed only when the thread was admitted.  The
day is fixed (no rollover) since the run models a single calendar day. -/
def raceStep (cap c0 c1 : Nat) (st : RaceState) (t : Bool) : RaceState :=
  if t then
    match st.pc1 with
    | 0 => { st with pc1 := 1, adm1 := decide (st.tally + c1 < cap) }
    | 1 => if st.adm1 then { st with pc1 := 2, tally := st.tally + c1 }
           else { st with pc1 := 2 }
    | _ => st
  else
    match st.pc0 with
    | 0 => { st with pc0 := 1, adm0 := decide (st.tally + c0 < cap) }
    | 1 => if st.adm0 then { st with pc0 := 2, tally := st.tally + c0 }
           else { st with pc0 := 2 }
    | _ => st

/-- Run a schedule (a list of thread choices) from a race state. -/
def raceRun (cap c0 c1 : Nat) : List Bool → RaceState → RaceState
  | [], st => st
  | t :: rest, st => raceRun cap c0 c1 rest (raceStep cap c0 c1 st t)

/-- Whole-word case-insensitive containment, stated structurally: some
decomposition `pre ++ w ++ post` of the text has `w` equal to the
keyword up to case, with no word character adjacent on either side. -/
def containsWholeWordCI (kw text : Str) : Prop :=
  ∃ pre w post, text = pre ++ w ++ post ∧ lowerStr w = lowerStr kw ∧
    (pre = [] ∨ ∃ pre2 c, pre = pre2 ++ [c] ∧ isWordChar c = false) ∧
    (post = [] ∨ ∃ c post2, post = c :: post2 ∧ isWordChar c = false)

/-- Test that `frag` occurs at no index of `s` strictly below `k`; used
to state that the trailing sentence fragment occurs nowhere earlier in
the input. -/
def noOccBefore (frag s : Str) (k : Nat) : Bool :=
  (List.range k).all (fun i => !matchHere (s.drop i) frag)

/-- A concrete 2002-character text consisting of 1001 whitespace
separated words, used to exercise the word-count ceiling. -/
def longBody : Str := (List.replicate 1001 ['a', ' ']).flatten

/-- Claim C1: the admission call (check_budget followed by the call-site
charge) charges exactly when, after any day rollover, tally + len(text)
is strictly below the cap; check_budget itself never adds to the tally,
and a declined admission leaves the ledger at the post-rollover state. -/
theorem C1_budget_admission (cap d : Nat) (text : Str) (s : Ledger) :
    (checkBudget cap d text s).2 = rollover d s
    ∧ ((rollover d s).tally + text.length < cap →
        checkAndCharge cap d text s
          = (true, ⟨(rollover d s).today, (rollover d s).tally + text.length⟩))
    ∧ (¬ ((rollover d s).tally + text.length < cap) →
        checkAndCharge cap d text s = (false, rollover d s)) := by
  refine ⟨rfl, ?_, ?_⟩ <;> intro h <;>
    simp [checkAndCharge, checkBudget, h]

theorem C1_budget_admission_witness :
    checkAndCharge 10 0 (s2l "abcd") ⟨0, 3⟩ = (true, ⟨0, 7⟩)
    ∧ checkAndCharge 3 0 (s2l "abcd") ⟨0, 0⟩ = (false, ⟨0, 0⟩) := by
  constructor
  · exact (C1_budget_admission 10 0 (s2l "abcd") ⟨0, 3⟩).2.1 (by decide)
  · exact (C1_budget_admission 3 0 (s2l "abcd") ⟨0, 0⟩).2.2 (by decide)

/-- Claim C2 (code bug): the unsynchronised check-then-charge sequence is
not atomic.  With cap 10 and two threads each admitting cost 9, the
schedule that runs both check_budget comparisons before either charge
admits both threads and charges 18 in one day. -/
theorem C2_race_over_admission :
    (raceRun 10 9 9 [false, true, false, true] ⟨0, 0, false, 0, false⟩).adm0 = true
    ∧ (raceRun 10 9 9 [false, true, false, true] ⟨0, 0, false, 0, false⟩).adm1 = true
    ∧ (raceRun 10 9 9 [false, true, false, true] ⟨0, 0, false, 0, false⟩).tally = 18
    ∧ 10 < (raceRun 10 9 9 [false, true, false, true] ⟨0, 0, false, 0, false⟩).tally := by
  decide

/-- Claim C6: an admission call on a changed date resets the tally to 0
and stores the new day before the comparison; a same-date call performs
no reset; after any admission the stored day is the call date; and the
tally can only decrease across an admission when the date changed. -/
theorem C6_day_rollover (cap d : Nat) (text : Str) (s : Ledger) :
    (d ≠ s.today →
        checkBudget cap d text s = (decide (0 + text.length < cap), ⟨d, 0⟩))
    ∧ (d = s.today → rollover d s = s)
    ∧ (checkAndCharge cap d text s).2.today = d
    ∧ ((checkAndCharge cap d text s).2.tally < s.tally → d ≠ s.today) := by
  refine ⟨?_, ?_, ?_, ?_⟩
  · intro h; simp [checkBudget, rollover, h]
  · intro h; simp [rollover, h]
  · by_cases h : d = s.today <;>
      simp [checkAndCharge, checkBudget, rollover, h] <;> split <;> simp [h]
  · intro hlt
    by_contra h
    simp [checkAndCharge, checkBudget, rollover, h] at hlt
    split at hlt <;> simp at hlt

theorem C6_day_rollover_witness :
    checkBudget 10 1 (s2l "ab") ⟨0, 5⟩ = (true, ⟨1, 0⟩)
    ∧ (1 : Nat) ≠ 0 := by
  constructor
  · have h := (C6_day_rollover 10 1 (s2l "ab") ⟨0, 5⟩).1 (by decide)
    simpa using h
  · exact (C6_day_rollover 10 1 (s2l "ab") ⟨0, 5⟩).2.2.2 (by decide)

/-- Claim C8 (amended): is_toxic fires exactly when the classifier score
is STRICTLY above the configured threshold; a score equal to the
threshold is accepted, not rejected. -/
theorem C8_toxicity_amended (θ : ℚ) (classify : Str → ℚ) (text : Str) :
    (isToxic θ classify text = true ↔ θ < classify text)
    ∧ (classify text = θ → isToxic θ classify text = false) := by
  constructor
  · simp [isToxic]
  · intro h; simp [isToxic, h]

theorem C8_toxicity_cex : isToxic 0 (fun _ => 0) [] = false := by decide

theorem C8_toxicity_witness : isToxic 0 (fun _ => 0) (s2l "x") = false :=
  (C8_toxicity_amended 0 (fun _ => 0) (s2l "x")).2 rfl

/-- Claim C10 (amended): an admitted on_topic call charges len(text) to
the tally before the classifier is invoked and the charge persists for
every classifier outcome; a declined call returns False without a
classifier call, leaving the ledger at the post-rollover state. -/
theorem C10_on_topic_amended (cap d : Nat) (θ : ℚ)
    (classify : Str → Option (List ℚ)) (text : Str) (topics : List Str)
    (s : Ledger) :
    ((rollover d s).tally + text.length < cap →
        (onTopic cap d θ classify text topics s).2.1
          = ⟨(rollover d s).today, (rollover d s).tally + text.length⟩
        ∧ (onTopic cap d θ classify text topics s).2.2
          = some ((rollover d s).tally + text.length))
    ∧ (¬ ((rollover d s).tally + text.length < cap) →
        onTopic cap d θ classify text topics s = (false, rollover d s, none)) := by
  constructor
  · intro h
    cases hc : classify text <;> simp [onTopic, checkBudget, h, hc]
  · intro h
    simp [onTopic, checkBudget, h]

theorem C10_on_topic_cex :
    onTopic 3 1 0 (fun _ => none) (s2l "abc") [] ⟨0, 5⟩ = (false, ⟨1, 0⟩, none)
    ∧ (⟨1, 0⟩ : Ledger).tally ≠ (⟨0, 5⟩ : Ledger).tally := by decide

theorem C10_on_topic_witness :
    (onTopic 10 0 0 (fun _ => none) (s2l "ab") [] ⟨0, 1⟩).2.1 = ⟨0, 3⟩
    ∧ (onTopic 10 0 0 (fun _ => none) (s2l "ab") [] ⟨0, 1⟩).2.2 = some 3 := by
  have h := (C10_on_topic_amended 10 0 0 (fun _ => none) (s2l "ab") [] ⟨0, 1⟩).1 (by decide)
  exact ⟨by simpa using h.1, by simpa using h.2⟩

theorem makePostSelect_safe (kws : List Str) (tox : Str → Bool)
    (extract : Str → Bool) :
    ∀ (cands : List Str) (t : Str),
      makePostSelect kws tox extract cands = some t →
      bad_keyword kws t = [] ∧ tox t = false
  | [], t, h => by simp [makePostSelect] at h
  | c :: rest, t, h => by
      rw [makePostSelect] at h
      split_ifs at h with h1 h2
      · exact makePostSelect_safe kws tox extract rest t h
      · cases h
        simp only [Bool.or_eq_true, Bool.not_eq_true', not_or] at h1
        push_neg at h1
        exact ⟨by simpa using h1.1, by simpa using h1.2⟩
      · exact makePostSelect_safe kws tox extract rest t h

theorem buildPostTitleLoop_safe (kws : List Str) (tox : Str → Bool) :
    ∀ (cands : List Str) (acc : Option Str) (t : Str),
      (∀ x, acc = some x → bad_keyword kws x = [] ∧ tox x = false) →
      buildPostTitleLoop kws tox cands acc = some t →
      bad_keyword kws t = [] ∧ tox t = false
  | [], acc, t, hacc, h => by
      rw [buildPostTitleLoop] at h
      exact hacc t h
  | c :: rest, acc, t, hacc, h => by
      rw [buildPostTitleLoop] at h
      split_ifs at h with h1 h2 h3
      · exact buildPostTitleLoop_safe kws tox rest acc t hacc h
      · exact buildPostTitleLoop_safe kws tox rest acc t hacc h
      · exact buildPostTitleLoop_safe kws tox rest acc t hacc h
      · refine buildPostTitleLoop_safe kws tox rest _ t ?_ h
        intro x hx
        cases hx
        simp only [Bool.or_eq_true, Bool.not_eq_true', not_or] at h3
        push_neg at h3
        exact ⟨by simpa using h3.1, by simpa using h3.2⟩

theorem buildPostBodyLoop_safe (kws : List Str) (tox : Str → Bool) :
    ∀ (cands : List Str) (acc : Option Str) (body : Option Str),
      (∀ x, acc = some x → bad_keyword kws x = [] ∧ tox x = false) →
      buildPostBodyLoop kws tox cands acc = some body →
      ∀ b, body = some b → bad_keyword kws b = [] ∧ tox b = false
  | [], acc, body, hacc, h => by
      rw [buildPostBodyLoop] at h
      cases h
      exact fun b hb => hacc b hb
  | c :: rest, acc, body, hacc, h => by
      rw [buildPostBodyLoop] at h
      split_ifs at h with h1 h2
      · exact buildPostBodyLoop_safe kws tox rest acc body hacc h
      · refine buildPostBodyLoop_safe kws tox rest _ body ?_ h
        intro x hx
        cases hx
        simp only [Bool.or_eq_true, Bool.not_eq_true', not_or] at h2
        push_neg at h2
        exact ⟨by simpa using h2.1, by simpa using h2.2⟩

theorem makeCommentSelect_safe (kws : List Str) (tox : Str → Bool) :
    ∀ (cands : List Str) (t : Str),
      makeCommentSelect kws tox cands = some t →
      bad_keyword kws t = [] ∧ tox t = false
  | [], t, h => by simp [makeCommentSelect] at h
  | c :: rest, t, h => by
      rw [makeCommentSelect] at h
      split_ifs at h with h1 h2
      · exact makeCommentSelect_safe kws tox rest t h
      · cases h
        simp only [Bool.or_eq_true, Bool.not_eq_true', not_or] at h2
        push_neg at h2
        exact ⟨by simpa using h2.2, by simpa using h2.1⟩

theorem generateReplySelect_only_tox (tox : Str → Bool) :
    ∀ (cands : List Str) (t : Str),
      generateReplySelect tox cands = some t → tox t = false
  | [], t, h => by simp [generateReplySelect] at h
  | c :: rest, t, h => by
      rw [generateReplySelect] at h
      split_ifs at h with h1 h2
      · exact generateReplySelect_only_tox tox rest t h
      · exact generateReplySelect_only_tox tox rest t h
      · cases h
        simpa using h2

/-- Claim C3 (amended): in make_post, build_post and make_comment every
posted candidate passed both the keyword filter and the toxicity
filter; in generate_reply the posted candidate passed only the
toxicity filter (that loop never calls bad_keyword). -/
theorem C3_safety_filters_amended (kws : List Str) (tox : Str → Bool) :
    (∀ (extract : Str → Bool) (cands : List Str) (t : Str),
        makePostSelect kws tox extract cands = some t →
        bad_keyword kws t = [] ∧ tox t = false)
    ∧ (∀ (titleBatch : List Str) (linkpost bodyAdmitted : Bool)
         (bodyBatch : List Str) (title : Str) (body : Option Str),
        buildPostAttempt kws tox titleBatch linkpost bodyAdmitted bodyBatch
          = some (title, body) →
        (bad_keyword kws title = [] ∧ tox title = false)
        ∧ ∀ b, body = some b → bad_keyword kws b = [] ∧ tox b = false)
    ∧ (∀ (cands : List Str) (t : Str),
        makeCommentSelect kws tox cands = some t →
        bad_keyword kws t = [] ∧ tox t = false)
    ∧ (∀ (cands : List Str) (t : Str),
        generateReplySelect tox cands = some t → tox t = false) := by
  refine ⟨fun e c t h => makePostSelect_safe kws tox e c t h, ?_,
    fun c t h => makeCommentSelect_safe kws tox c t h,
    fun c t h => generateReplySelect_only_tox tox c t h⟩
  intro titleBatch linkpost bodyAdmitted bodyBatch title body h
  unfold buildPostAttempt at h
  cases ht : buildPostTitleLoop kws tox titleBatch none with
  | none => rw [ht] at h; cases h
  | some t0 =>
    rw [ht] at h
    dsimp only at h
    have htitle := buildPostTitleLoop_safe kws tox titleBatch none t0
      (by intro x hx; cases hx) ht
    by_cases hl : linkpost = true
    · rw [if_pos hl] at h
      cases h
      exact ⟨htitle, by intro b hb; cases hb⟩
    · rw [if_neg hl] at h
      by_cases hb2 : (!bodyAdmitted) = true
      · rw [if_pos hb2] at h
        cases h
      · rw [if_neg hb2] at h
        split at h
        · cases h
        · rename_i bd heq
          simp only [Option.some.injEq, Prod.mk.injEq] at h
          obtain ⟨h1, h2⟩ := h
          subst h1
          subst h2
          exact ⟨htitle,
            buildPostBodyLoop_safe kws tox bodyBatch none bd
              (by intro x hx; cases hx) heq⟩

theorem C3_safety_filters_cex :
    generateReplySelect (fun _ => false) [s2l "kill him. extra"]
      = some (s2l "kill him.")
    ∧ bad_keyword defaultNegativeKeywords (s2l "kill him.") ≠ [] := by
  decide

theorem C3_safety_filters_witness :
    bad_keyword defaultNegativeKeywords (s2l "ok then.") = []
    ∧ (fun _ : Str => false) (s2l "ok then.") = false :=
  (C3_safety_filters_amended defaultNegativeKeywords (fun _ => false)).2.2.1
    [s2l "ok then. x"] (s2l "ok then.") (by decide)

/-- Claim C5 (amended): an item that already carries a reply authored by
the bot is never dispatched to generation — except on the forced
image-reply path of watch_submissions (linkpost_only = 2 and a link
post), which fires before the deduplication check; watch_inbox always
respects the deduplication check. -/
theorem C5_dedup_amended (cfg : BotCfg) (me : Str) (kws : List Str)
    (onTopicRes : Bool) :
    (∀ it : SubItem, me ∈ it.commentAuthors →
        (cfg.linkpost_only = 2 → it.is_self = true) →
        watchSubDispatch cfg me kws onTopicRes it = false)
    ∧ (∀ (tokenize : Str → List Str) (cap d : Nat) (s : Ledger)
         (it : InboxItem), me ∈ it.replyAuthors →
        watchInboxDispatch cfg me kws tokenize onTopicRes cap d s it = false) := by
  constructor
  · intro it hmem hforce
    unfold watchSubDispatch
    split_ifs with h1 h2 h3 h4 <;> try rfl
    simp only [Bool.and_eq_true, beq_iff_eq, Bool.not_eq_true'] at h3
    exact absurd (hforce h3.1) (by simp [h3.2])
  · intro tokenize cap d s it hmem
    unfold watchInboxDispatch
    split_ifs with h1 h2 h3 <;> try rfl

theorem C5_dedup_cex :
    (s2l "bot") ∈
        (SubItem.mk (s2l "alice") false (s2l "hello world") [] (s2l "http")
          [s2l "bot"]).commentAuthors
    ∧ watchSubDispatch ⟨2, false⟩ (s2l "bot") defaultNegativeKeywords false
        (SubItem.mk (s2l "alice") false (s2l "hello world") [] (s2l "http")
          [s2l "bot"]) = true
    ∧ (makeCommentGate (s2l "story") (s2l "bot") (fun _ => s2l "a cat") 1000 0
        ⟨0, 0⟩ (RPost.mk (s2l "alice") (s2l "hello world") [] false
          (s2l "http"))).1 = true := by
  decide

theorem C5_dedup_witness :
    watchSubDispatch ⟨0, false⟩ (s2l "bot") defaultNegativeKeywords true
      (SubItem.mk (s2l "alice") true (s2l "hi") (s2l "text") [] [s2l "bot"])
      = false
    ∧ watchInboxDispatch ⟨0, true⟩ (s2l "bot") defaultNegativeKeywords wsTokens
        true 100 0 ⟨0, 0⟩
        (InboxItem.mk true (some (s2l "alice")) (s2l "hi") [s2l "bot"] true)
      = false := by
  constructor
  · exact (C5_dedup_amended ⟨0, false⟩ (s2l "bot") defaultNegativeKeywords
      true).1 _ (by decide) (fun hx => absurd hx (by decide))
  · exact (C5_dedup_amended ⟨0, true⟩ (s2l "bot") defaultNegativeKeywords
      true).2 wsTokens 100 0 ⟨0, 0⟩ _ (by decide)

/-- Claim C9 (amended): the words_below check gates only the incoming
comment body in watch_inbox (hard-coded ceiling 1000) on the non-forced
path, where it is conjoined with a budget pre-check; the backend-call
decision for an assembled reply prompt depends only on reaching the
thread root and on the character budget, never on a word count. -/
theorem C9_word_ceiling_amended (cfg : BotCfg) (me : Str) (kws : List Str)
    (tokenize : Str → List Str) (onTopicRes : Bool) (cap d : Nat)
    (s : Ledger) :
    (∀ it : InboxItem,
        ¬ (it.parentIsPost = true ∧ cfg.force_top_reply = true) →
        wordsBelow tokenize it.body inboxWordLimit = false →
        watchInboxDispatch cfg me kws tokenize onTopicRes cap d s it = false)
    ∧ (∀ (backstory username : Str) (maxLevels : Nat) (describe : Str → Str)
         (chain : List RComment) (p : RPost),
        (generateReplyGate backstory username maxLevels describe cap d s
            chain p).1 = true
        ↔ ∃ body,
            walkThread describe p maxLevels chain (replyLine username)
              = some body
            ∧ (checkBudget cap d (backstory ++ nlStr ++ body) s).1 = true) := by
  constructor
  · intro it hpath hwords
    unfold watchInboxDispatch
    split_ifs with h1 h2 h3 h4 h5 h6 <;> try rfl
    · exfalso
      simp only [Bool.and_eq_true] at h5
      exact hpath ⟨h5.1, h5.2⟩
    · exfalso
      simp only [Bool.and_eq_true] at h6
      rw [show inboxWordLimit = 1000 from rfl] at hwords
      rw [h6.2] at hwords
      cases hwords
  · intro backstory username maxLevels describe chain p
    unfold generateReplyGate
    cases hw : walkThread describe p maxLevels chain (replyLine username) with
    | none => simp
    | some body =>
      simp only [checkAndCharge, Option.some.injEq]
      constructor
      · intro h
        refine ⟨body, rfl, ?_⟩
        by_cases hb : (checkBudget cap d (backstory ++ nlStr ++ body) s).1
        · exact hb
        · rw [if_neg hb] at h
          cases h
      · rintro ⟨b2, hb2, hck⟩
        cases hb2
        rw [if_pos hck]

theorem wsTokensAux_longLead :
    ∀ (n : Nat) (t : Str),
      wsTokensAux ((List.replicate n ['a', ' ']).flatten ++ t) []
        = List.replicate n ['a'] ++ wsTokensAux t []
  | 0, t => rfl
  | n + 1, t => by
      have ih := wsTokensAux_longLead n t
      simp only [List.replicate_succ, List.flatten_cons, List.cons_append]
      rw [wsTokensAux]
      rw [if_neg (by decide)]
      rw [wsTokensAux]
      rw [if_pos (by decide)]
      rw [if_neg (by decide)]
      simp [ih]

theorem flatten_replicate_length (n : Nat) :
    ((List.replicate n ['a', ' ']).flatten).length = 2 * n := by
  induction n with
  | zero => rfl
  | succ k ih =>
      simp only [List.replicate_succ, List.flatten_cons, List.length_append, ih]
      simp
      ring

theorem wordsBelow_longBody_lead (t : Str) :
    wordsBelow wsTokens (longBody ++ t) inboxWordLimit = false := by
  unfold wordsBelow wsTokens inboxWordLimit longBody
  rw [wsTokensAux_longLead]
  rw [List.length_append, List.length_replicate]
  simp only [Bool.not_eq_false', decide_eq_true_eq]
  omega

theorem longBody_length : longBody.length = 2002 := by
  rw [longBody, flatten_replicate_length]

theorem checkBudget_same_day_true (cap : Nat) (text : Str) (d tal : Nat)
    (h : tal + text.length < cap) :
    (checkBudget cap d text ⟨d, tal⟩).1 = true := by
  simp [checkBudget, rollover, h]

theorem generateReplyGate_single (backstory username : Str) (n : Nat)
    (describe : Str → Str) (cap d : Nat) (s : Ledger) (c : RComment)
    (p : RPost) :
    (generateReplyGate backstory username (n + 1) describe cap d s [c] p).2.1
      = backstory ++ nlStr
        ++ (postLine describe p ++ nlStr
            ++ (commentLine c ++ nlStr ++ replyLine username))
    ∧ (generateReplyGate backstory username (n + 1) describe cap d s [c] p).1
      = (checkBudget cap d
          (backstory ++ nlStr
            ++ (postLine describe p ++ nlStr
                ++ (commentLine c ++ nlStr ++ replyLine username))) s).1 := by
  refine ⟨rfl, ?_⟩
  show (checkAndCharge cap d
      (backstory ++ nlStr
        ++ (postLine describe p ++ nlStr
            ++ (commentLine c ++ nlStr ++ replyLine username))) s).1 = _
  unfold checkAndCharge
  dsimp only
  cases hb : (checkBudget cap d
      (backstory ++ nlStr
        ++ (postLine describe p ++ nlStr
            ++ (commentLine c ++ nlStr ++ replyLine username))) s).1 <;>
    simp

theorem C9_word_ceiling_cex :
    (generateReplyGate longBody (s2l "bot") 4 (fun _ => []) 10000 0 ⟨0, 0⟩
        [⟨s2l "u1", s2l "hi"⟩]
        (RPost.mk (s2l "op") (s2l "t") (s2l "s") true (s2l "u"))).1 = true
    ∧ wordsBelow wsTokens
        ((generateReplyGate longBody (s2l "bot") 4 (fun _ => []) 10000 0 ⟨0, 0⟩
            [⟨s2l "u1", s2l "hi"⟩]
            (RPost.mk (s2l "op") (s2l "t") (s2l "s") true (s2l "u"))).2.1)
        inboxWordLimit = false := by
  rewrite [show (4 : Nat) = 3 + 1 from rfl]
  constructor
  · rewrite [(generateReplyGate_single longBody (s2l "bot") 3 (fun _ => [])
      10000 0 ⟨0, 0⟩ ⟨s2l "u1", s2l "hi"⟩
      (RPost.mk (s2l "op") (s2l "t") (s2l "s") true (s2l "u"))).2]
    refine checkBudget_same_day_true 10000 _ 0 0 ?_
    rewrite [List.length_append, List.length_append, longBody_length]
    have hrest1 : nlStr.length = 1 := by decide
    have hrest : (postLine (fun _ => [])
              (RPost.mk (s2l "op") (s2l "t") (s2l "s") true (s2l "u")) ++ nlStr
            ++ (commentLine ⟨s2l "u1", s2l "hi"⟩ ++ nlStr
                ++ replyLine (s2l "bot"))).length < 200 := by decide
    omega
  · rewrite [(generateReplyGate_single longBody (s2l "bot") 3 (fun _ => [])
      10000 0 ⟨0, 0⟩ ⟨s2l "u1", s2l "hi"⟩
      (RPost.mk (s2l "op") (s2l "t") (s2l "s") true (s2l "u"))).1]
    rewrite [List.append_assoc]
    exact wordsBelow_longBody_lead _

theorem wordsBelow_longBody :
    wordsBelow wsTokens longBody inboxWordLimit = false := by
  have h := wordsBelow_longBody_lead []
  rwa [List.append_nil] at h

theorem C9_word_ceiling_witness :
    watchInboxDispatch ⟨0, false⟩ (s2l "bot") [] wsTokens true 10000 0 ⟨0, 0⟩
      (InboxItem.mk true (some (s2l "alice")) longBody [] false) = false :=
  (C9_word_ceiling_amended ⟨0, false⟩ (s2l "bot") [] wsTokens true 10000 0
    ⟨0, 0⟩).1 (InboxItem.mk true (some (s2l "alice")) longBody [] false)
    (by simp) wordsBelow_longBody

theorem lowerStr_append (a b : Str) :
    lowerStr (a ++ b) = lowerStr a ++ lowerStr b := by
  simp [lowerStr]

theorem matchHere_append_self : ∀ (p t : Str), matchHere (p ++ t) p = true
  | [], t => by rw [List.nil_append, matchHere]
  | c :: ps, t => by
      simp only [List.cons_append, matchHere, if_pos]
      exact matchHere_append_self ps t

theorem wordSearch_of_contains (kw text : Str)
    (h : containsWholeWordCI kw text) : wordSearch kw text = true := by
  obtain ⟨pre, w, post, hd, hlow, hpre, hpost⟩ := h
  have hlen : w.length = kw.length := by
    have hl := congrArg List.length hlow
    simpa [lowerStr] using hl
  have hdrop : text.drop pre.length = w ++ post := by
    rw [hd, List.append_assoc]
    exact List.drop_left pre (w ++ post)
  have hmatch : matchHere (lowerStr (text.drop pre.length)) (lowerStr kw)
      = true := by
    rw [hdrop, lowerStr_append, ← hlow]
    exact matchHere_append_self _ _
  have hafter : wordCharAt text (pre.length + kw.length) = false := by
    have hdrop2 : text.drop (pre.length + w.length) = post := by
      rw [hd]
      have he : pre.length + w.length = (pre ++ w).length :=
        (List.length_append _ _).symm
      rw [he]
      exact List.drop_left _ _
    rw [← hlen]
    unfold wordCharAt
    rw [hdrop2]
    rcases hpost with h0 | ⟨c, post2, hp, hcw⟩
    · rw [h0]
    · rw [hp]; exact hcw
  have hbefore : (pre.length == 0 || !wordCharAt text (pre.length - 1))
      = true := by
    rcases hpre with h0 | ⟨pre2, c, hp, hcw⟩
    · rw [h0]; rfl
    · have hlen2 : pre.length - 1 = pre2.length := by
        rw [hp]; simp
      have hdropb : text.drop pre2.length = c :: (w ++ post) := by
        rw [hd, hp, List.append_assoc, List.append_assoc,
          List.singleton_append]
        exact List.drop_left pre2 _
      rw [hlen2]
      unfold wordCharAt
      rw [hdropb]
      simp [hcw]
  unfold wordSearch
  rw [List.any_eq_true]
  refine ⟨pre.length, ?_, ?_⟩
  · rw [List.mem_range]
    have hle : pre.length ≤ text.length := by
      rw [hd, List.length_append, List.length_append]
      omega
    omega
  · simp only [wordMatchAt, hmatch, hbefore, hafter, Bool.and_self,
      Bool.not_false, Bool.and_true, Bool.true_and]

/-- Claim C7: the keyword filter matches whole words case-insensitively:
any text containing nazi as a whole word in any capitalization is
rejected, while the text nazionale, where nazi occurs only as a proper
prefix of a longer word, is not. -/
theorem C7_keyword_whole_word :
    (∀ text : Str, containsWholeWordCI (s2l "nazi") text →
        bad_keyword defaultNegativeKeywords text ≠ [])
    ∧ bad_keyword defaultNegativeKeywords (s2l "Nazi") ≠ []
    ∧ bad_keyword defaultNegativeKeywords (s2l "NAZI") ≠ []
    ∧ bad_keyword defaultNegativeKeywords (s2l "nazionale") = [] := by
  refine ⟨?_, by decide, by decide, by decide⟩
  intro text hc
  have hs := wordSearch_of_contains (s2l "nazi") text hc
  have hmem : (s2l "nazi") ∈ defaultNegativeKeywords := by decide
  have hin : (s2l "nazi") ∈ bad_keyword defaultNegativeKeywords text := by
    rw [bad_keyword, List.mem_filter]
    exact ⟨hmem, hs⟩
  exact List.ne_nil_of_mem hin

theorem C7_keyword_whole_word_witness :
    bad_keyword defaultNegativeKeywords (s2l "a Nazi!") ≠ [] :=
  C7_keyword_whole_word.1 (s2l "a Nazi!")
    ⟨s2l "a ", s2l "Nazi", s2l "!", by decide, by decide,
     Or.inr ⟨s2l "a", ' ', by decide, by decide⟩,
     Or.inr ⟨'!', ([] : Str), by decide, by decide⟩⟩

theorem takeWhile_length_eq_iff_all (p : Char → Bool) (l : Str) :
    ((l.takeWhile p).length = l.length) ↔ l.all p = true := by
  constructor
  · intro h
    have hpre : l.takeWhile p <+: l := List.takeWhile_prefix p
    have heq : l.takeWhile p = l := hpre.eq_of_length h
    rw [List.all_eq_true]
    exact List.takeWhile_eq_self_iff.mp heq
  · intro h
    rw [List.takeWhile_eq_self_iff.mpr (List.all_eq_true.mp h)]

theorem suffixAfterLastTerm_cons (c : Char) (rest : Str) :
    suffixAfterLastTerm (c :: rest)
      = if rest.any isTermChar then suffixAfterLastTerm rest
        else if isTermChar c then rest else c :: rest := by
  unfold suffixAfterLastTerm
  rw [List.reverse_cons, List.takeWhile_append]
  by_cases h : rest.any isTermChar = true
  · rw [if_pos h]
    rw [if_neg ?hcond]
    case hcond =>
      rw [takeWhile_length_eq_iff_all, List.all_reverse]
      simp only [List.all_eq_true, List.any_eq_true] at h ⊢
      obtain ⟨a, ha, hta⟩ := h
      intro hall
      have := hall a ha
      rw [hta] at this
      cases this
  · rw [if_neg h]
    rw [if_pos ?hcond2]
    case hcond2 =>
      rw [takeWhile_length_eq_iff_all, List.all_reverse]
      simp only [List.all_eq_true, List.any_eq_true] at h ⊢
      intro a ha
      by_cases hta : isTermChar a = true
      · exact absurd ⟨a, ha, hta⟩ h
      · simp [hta]
    by_cases hc : isTermChar c = true
    · rw [if_pos hc]
      simp [List.takeWhile, hc]
    · rw [if_neg hc]
      simp [List.takeWhile, hc]

theorem pySplitTermAux_ne_nil : ∀ (s acc : Str), pySplitTermAux s acc ≠ []
  | [], acc => by simp [pySplitTermAux]
  | c :: rest, acc => by
      rw [pySplitTermAux]
      split
      · simp
      · exact pySplitTermAux_ne_nil rest _

theorem getLastD_of_ne_nil : ∀ (l : List Str) (d1 d2 : Str), l ≠ [] →
    l.getLastD d1 = l.getLastD d2
  | [], _, _, h => absurd rfl h
  | a :: l, d1, d2, _ => by rw [List.getLastD_cons, List.getLastD_cons]

theorem pySplitTermAux_getLast :
    ∀ (s acc : Str),
      (pySplitTermAux s acc).getLastD []
        = if s.any isTermChar then suffixAfterLastTerm s else acc.reverse ++ s
  | [], acc => by simp [pySplitTermAux]
  | c :: rest, acc => by
      rw [pySplitTermAux]
      by_cases hc : isTermChar c = true
      · rw [if_pos hc, List.getLastD_cons,
          getLastD_of_ne_nil _ acc.reverse [] (pySplitTermAux_ne_nil rest []),
          pySplitTermAux_getLast rest []]
        by_cases hr : rest.any isTermChar = true <;>
          simp [hr, hc, suffixAfterLastTerm_cons, List.any_cons]
      · rw [if_neg hc, pySplitTermAux_getLast rest (c :: acc)]
        by_cases hr : rest.any isTermChar = true <;>
          simp [hr, hc, suffixAfterLastTerm_cons, List.any_cons]

theorem pySplitTerm_getLast_eq (s : Str) (h : s.any isTermChar = true) :
    (pySplitTerm s).getLastD [] = suffixAfterLastTerm s := by
  rw [pySplitTerm, pySplitTermAux_getLast, if_pos h]

theorem cleanText_term (s : Str) (hq : findQuoteIdx s = none)
    (ht : s.any isTermChar = true) :
    cleanText s = pyReplace s (suffixAfterLastTerm s) := by
  unfold cleanText
  rw [hq]
  dsimp only
  rw [if_pos ht, pySplitTerm_getLast_eq s ht]

theorem matchHere_self (l : Str) : matchHere l l = true := by
  have h := matchHere_append_self l []
  rwa [List.append_nil] at h

theorem pyReplaceAux_consume (old : Str) (hold : old ≠ []) :
    ∀ (pre : Str) (fuel : Nat), (pre ++ old).length ≤ fuel →
      (∀ i, i < pre.length → matchHere ((pre ++ old).drop i) old = false) →
      pyReplaceAux fuel (pre ++ old) old = pre
  | [], fuel, hf, _ => by
      rw [List.nil_append] at hf ⊢
      cases old with
      | nil => exact absurd rfl hold
      | cons c os =>
          cases fuel with
          | zero => simp at hf
          | succ n =>
              rw [pyReplaceAux, if_pos (matchHere_self _)]
              rw [show (c :: os).length - 1 = os.length by simp]
              rw [List.drop_length]
              cases n <;> rfl
  | a :: pre2, fuel, hf, hocc => by
      cases fuel with
      | zero =>
          rw [List.cons_append] at hf
          simp at hf
      | succ n =>
          rw [List.cons_append] at hf ⊢
          rw [pyReplaceAux]
          rw [if_neg ?hno]
          case hno =>
            have h0 := hocc 0 (by simp)
            rw [List.drop_zero, List.cons_append] at h0
            simp [h0]
          congr 1
          refine pyReplaceAux_consume old hold pre2 n ?_ ?_
          · rw [List.length_cons] at hf
            omega
          · intro i hi
            have hi2 := hocc (i + 1) (by simp; omega)
            rw [List.cons_append, List.drop_succ_cons] at hi2
            exact hi2

theorem pyReplace_single (pre old : Str)
    (hocc : ∀ i, i < pre.length → matchHere ((pre ++ old).drop i) old = false) :
    pyReplace (pre ++ old) old = pre := by
  by_cases h : old = []
  · subst h
    rw [pyReplace]
    simp
  · rw [pyReplace, if_neg (by simpa using h)]
    exact pyReplaceAux_consume old h pre _ le_rfl hocc

/-- Claim C4 (amended): the quote case truncates at the first quote; the
terminator case removes EVERY occurrence of the trailing fragment,
which is truncation just before the last sentence fragment exactly when
that fragment occurs nowhere earlier; the fallback truncates just after
the last space character, or yields empty when there is no space; the
empty input yields empty, but a pure-whitespace input containing a
space is returned unchanged rather than discarded. -/
theorem C4_clean_text_amended :
    cleanText (s2l "hello \"world\" extra") = s2l "hello "
    ∧ (∀ s : Str, findQuoteIdx s = none → s.any isTermChar = true →
        cleanText s = pyReplace s (suffixAfterLastTerm s))
    ∧ (∀ (pre s : Str), findQuoteIdx s = none → s.any isTermChar = true →
        s = pre ++ suffixAfterLastTerm s →
        noOccBefore (suffixAfterLastTerm s) s pre.length = true →
        cleanText s = pre)
    ∧ (∀ s : Str, findQuoteIdx s = none → s.any isTermChar = false →
        (∀ i : Nat, rfindIdx ' ' s = some i → cleanText s = s.take (i + 1))
        ∧ (rfindIdx ' ' s = none → cleanText s = []))
    ∧ cleanText [] = []
    ∧ cleanText (s2l " ") = s2l " " := by
  refine ⟨by decide, ?_, ?_, ?_, by decide, by decide⟩
  · intro s hq ht
    exact cleanText_term s hq ht
  · intro pre s hq ht hdecomp hno
    have hct := cleanText_term s hq ht
    rw [noOccBefore] at hno
    generalize hfr : suffixAfterLastTerm s = frag at hct hdecomp hno
    rw [hct, hdecomp]
    refine pyReplace_single pre frag ?_
    intro i hi
    rw [hdecomp] at hno
    have hx := (List.all_eq_true.mp hno) i (List.mem_range.mpr hi)
    simpa using hx
  · intro s hq ht
    constructor
    · intro i hrf
      unfold cleanText
      rw [hq]
      dsimp only
      rw [if_neg (by simp [ht]), hrf]
    · intro hrf
      unfold cleanText
      rw [hq]
      dsimp only
      rw [if_neg (by simp [ht]), hrf]

theorem C4_clean_text_cex :
    cleanText (s2l "ab.ab") = s2l "." ∧ s2l "." ≠ s2l "ab."
    ∧ cleanText (s2l " ") = s2l " " ∧ s2l " " ≠ ([] : Str)
    ∧ cleanText (s2l "a\tb") = [] ∧ ([] : Str) ≠ s2l "a\t" := by
  decide

theorem C4_clean_text_witness :
    cleanText (s2l "ok go. x") = s2l "ok go."
    ∧ cleanText (s2l "one two") = s2l "one " := by
  constructor
  · exact C4_clean_text_amended.2.2.1 (s2l "ok go.") (s2l "ok go. x")
      (by decide) (by decide) (by decide) (by decide)
  · exact (C4_clean_text_amended.2.2.2.1 (s2l "one two") (by decide)
      (by decide)).1 3 (by decide)
